import Mathlib

/-!
# Verification of the `googlebooks` client library

Shallow embedding of the repository's query-builder
(`SearchQueryType` / `SearchAdvancedQuery` in `src/googlebooks/search.py`,
duplicated as `BookSearchQueryType` in `src/googlebooks/api.py`) and of the
lazy, cached, indexable search cursor (`BookSearch` / `BookIterSearch` in
`src/googlebooks/search.py`), together with theorems settling the
specification's claims about them.

Python values are modelled as follows: strings are Lean `String`, Python
`int` is `Int`, Python exceptions are the `PyError` sum type, the HTTP
transport (`requests.get` + JSON decoding inside `BookSearch.__request`) is
an opaque function stored in the cursor, and the result cache
(`BookSearch.__results`, a `dict` from `int` to raw JSON records) is a
function `Int → Option RawRecord`.
-/

namespace GoogleBooks

/-- The Python exception kinds that the modelled code can raise.
`typeError` / `valueError` are the invalid-argument / invalid-data errors,
`keyError` is the not-found error (a `dict` lookup miss), and `httpError`
is the transport error raised by `response.raise_for_status()`. -/
inductive PyError where
  | typeError
  | valueError
  | keyError
  | httpError
deriving DecidableEq

/-- A raw JSON record as returned inside the provider's `items` list.
Only the fields inspected by `BooksResource.__assert_valid_data` are
modelled explicitly (`data['kind']` when present, and whether `'selfLink'`
is a key of the dict); everything else is an opaque `payload`. -/
structure RawRecord where
  kind : Option String
  hasSelfLink : Bool
  payload : Nat
deriving DecidableEq

/-- `listIsPref pre l` models Python `str.startswith`: `pre` is a prefix
of `l` (on the character lists of the strings). -/
def listIsPref : List Char → List Char → Bool
  | [], _ => true
  | _ :: _, [] => false
  | a :: as, b :: bs => a == b && listIsPref as bs

/-- `pyStartswith s pre` models `s.startswith(pre)` from
`BooksResource.__assert_valid_data` (`utils/utils.py`). -/
def pyStartswith (s pre : String) : Bool :=
  listIsPref pre.toList s.toList

/-- `BooksResource.__assert_valid_data` (`utils/utils.py` lines 19-35):
the record must have a `'kind'` key whose value starts with `'books#'`,
and a `'selfLink'` key; otherwise a `ValueError` is raised. -/
def validResourceData (r : RawRecord) : Bool :=
  (match r.kind with
   | some k => pyStartswith k "books#"
   | none => false)
  && r.hasSelfLink

/-- A decoded `Book` (`book.py`): a `BooksResource` wrapping the validated
raw record `_data`. -/
structure Book where
  _data : RawRecord
deriving DecidableEq

/-- `Book(data)`, i.e. `BooksResource.__init__`: validate the raw record
and wrap it; raises `ValueError` on invalid resource data. -/
def Book.init (data : RawRecord) : Except PyError Book :=
  if validResourceData data then .ok ⟨data⟩ else .error .valueError

/-! ## Python `str.split()` (no arguments)

`SearchQueryType.include`/`exclude` call `query.split()`, which splits on
runs of arbitrary whitespace and never produces empty tokens. -/

/-- Worker for `pySplit`: `acc` is the current (reversed) word being
accumulated. -/
def pyWordsAux : List Char → List Char → List (List Char)
  | acc, [] => if acc.isEmpty then [] else [acc.reverse]
  | acc, c :: cs =>
    if c.isWhitespace then
      if acc.isEmpty then pyWordsAux [] cs
      else acc.reverse :: pyWordsAux [] cs
    else pyWordsAux (c :: acc) cs

/-- Python `query.split()` with no arguments: the maximal whitespace-free
words of the string. -/
def pySplit (s : String) : List String :=
  (pyWordsAux [] s.toList).map fun cs => String.mk cs

/-! ## Python `set` of strings

The source keeps include/exclude literals in Python `set`s, whose
iteration order is unspecified.  The spec (§4.1) fixes a deterministic
order for testability and suggests sorted order; we model a string set as
a strictly sorted, duplicate-free list, which is extensionally a set and
iterates in sorted order. -/

/-- Lexicographic strict order on character lists (by code point, the
order Python's `sorted` uses on strings). -/
def charListLt : List Char → List Char → Bool
  | [], [] => false
  | [], _ :: _ => true
  | _ :: _, [] => false
  | a :: as, b :: bs => a.toNat.blt b.toNat || (a == b && charListLt as bs)

/-- Lexicographic strict order on strings. -/
def strLt (a b : String) : Bool := charListLt a.toList b.toList

/-- Insert a string into a sorted duplicate-free list, keeping it sorted
and duplicate-free. -/
def sinsert (x : String) : List String → List String
  | [] => [x]
  | y :: ys =>
    if x = y then y :: ys
    else if strLt x y then x :: y :: ys
    else y :: sinsert x ys

/-- Python `s.update(q)`: add every element of `q` to the set `s`. -/
def setUnion (s q : List String) : List String :=
  q.foldl (fun acc x => sinsert x acc) s

/-- Python `s -= q` (set difference): remove every element of `q` from
the set `s`. -/
def setDiff (s q : List String) : List String :=
  s.filter fun x => !(q.contains x)

/-! ## `SearchQueryType` (`search.py` lines 10-73, identical to
`BookSearchQueryType` in `api.py`) -/

/-- One query type (field scope) of the book search: an optional scope
name plus the include and exclude literal sets. -/
structure SearchQueryType where
  _name : Option String
  _include : List String
  _exclude : List String
deriving DecidableEq

/-- `SearchQueryType.__init__(name)`. -/
def SearchQueryType.init (name : Option String) : SearchQueryType :=
  ⟨name, [], []⟩

/-- The literal set produced by one `include`/`exclude` call:
`{f'"{query}"'} if exact else set(query.split())` (`search.py` lines 37
and 49). -/
def queryLiterals (query : String) (exact : Bool) : List String :=
  if exact then ["\"" ++ query ++ "\""] else pySplit query

/-- `SearchQueryType.include` (`search.py` lines 30-39): add the literals
to the include set and remove them from the exclude set.  (Named
`include'` because `include` is a Lean keyword.) -/
def SearchQueryType.include' (t : SearchQueryType) (query : String)
    (exact : Bool) : SearchQueryType :=
  let q := queryLiterals query exact
  { t with
    _include := setUnion t._include q
    _exclude := setDiff t._exclude q }

/-- `SearchQueryType.exclude` (`search.py` lines 41-51): add the literals
to the exclude set and remove them from the include set. -/
def SearchQueryType.exclude (t : SearchQueryType) (query : String)
    (exact : Bool) : SearchQueryType :=
  let q := queryLiterals query exact
  { t with
    _exclude := setUnion t._exclude q
    _include := setDiff t._include q }

/-- `SearchQueryType.__generate_single_query_str` (`search.py` lines
53-62): render one literal as `±[scope:]literal`. -/
def generateSingleQueryStr (name : Option String) (query : String)
    (exclude : Bool) : String :=
  let sign := if exclude then "-" else "+"
  let scope := match name with
    | some n => n ++ ":"
    | none => ""
  sign ++ scope ++ query

/-- Python `''.join(l)`: concatenate a list of strings with no
separator. -/
def strConcat (l : List String) : String :=
  l.foldr (fun a b => a ++ b) ""

/-- `SearchQueryType.__str__` (`search.py` lines 64-73): all include
tokens, then all exclude tokens, concatenated with no separator (set
iteration taken in our canonical sorted order). -/
def SearchQueryType.render (t : SearchQueryType) : String :=
  strConcat (t._include.map fun q => generateSingleQueryStr t._name q false)
  ++ strConcat (t._exclude.map fun q => generateSingleQueryStr t._name q true)

/-- One `include`/`exclude` call on a `SearchQueryType`. -/
inductive QueryOp where
  | inc (text : String) (exact : Bool)
  | exc (text : String) (exact : Bool)
deriving DecidableEq

/-- Apply one builder call. -/
def applyOp (t : SearchQueryType) : QueryOp → SearchQueryType
  | .inc text exact => t.include' text exact
  | .exc text exact => t.exclude text exact

/-- Apply a sequence of builder calls, oldest first. -/
def applyOps (t : SearchQueryType) (ops : List QueryOp) : SearchQueryType :=
  ops.foldl applyOp t

/-- The literal set produced by a call. -/
def opLiterals : QueryOp → List String
  | .inc text exact => queryLiterals text exact
  | .exc text exact => queryLiterals text exact

/-- Whether a call is an `include` call. -/
def opIsInclude : QueryOp → Bool
  | .inc _ _ => true
  | .exc _ _ => false

/-! ## `SearchAdvancedQuery` (`search.py` lines 76-147) -/

/-- `SearchAdvancedQuery.__AVALIABLE_QUERY_TYPES` (`search.py` lines
80-83).  The source stores these names in a Python `set` and builds the
`_queries` dict by iterating it; the iteration order is unspecified but
fixed once the dict is built.  We model it as the source-literal order. -/
def AVALIABLE_QUERY_TYPES : List String :=
  ["intitle", "inauthor", "inpublisher", "subject", "isbn", "lccn", "oclc"]

/-- `SearchAdvancedQuery`: the scope-less main query plus the dict from
scope name to its `SearchQueryType` (a Python dict preserves its
insertion order, modelled as an association list). -/
structure SearchAdvancedQuery where
  _main_query : SearchQueryType
  _queries : List (String × SearchQueryType)

/-- `SearchAdvancedQuery.__init__` (`search.py` lines 85-90). -/
def SearchAdvancedQuery.init : SearchAdvancedQuery :=
  ⟨SearchQueryType.init none,
   AVALIABLE_QUERY_TYPES.map fun name => (name, SearchQueryType.init (some name))⟩

/-- One call on a `SearchAdvancedQuery`: either a delegated call on the
scope-less main query (`include`/`exclude`, `search.py` lines 92-105) or
a call on one named scope obtained through the accessor properties
(`title`, `author`, ..., `search.py` lines 107-140). -/
inductive AdvOp where
  | main (op : QueryOp)
  | onScope (scope : String) (op : QueryOp)

/-- Apply one call to the composite builder. -/
def applyAdvOp (q : SearchAdvancedQuery) : AdvOp → SearchAdvancedQuery
  | .main op => { q with _main_query := applyOp q._main_query op }
  | .onScope scope op =>
    { q with
      _queries := q._queries.map fun p =>
        if p.1 = scope then (p.1, applyOp p.2 op) else p }

/-- Apply a sequence of calls to the composite builder, oldest first. -/
def applyAdvOps (q : SearchAdvancedQuery) (ops : List AdvOp) : SearchAdvancedQuery :=
  ops.foldl applyAdvOp q

/-- `SearchAdvancedQuery.__str__` (`search.py` lines 142-147):
`[self._main_query] + list(self._queries.values())`, each rendered, all
joined with no separator. -/
def SearchAdvancedQuery.render (q : SearchAdvancedQuery) : String :=
  strConcat (([q._main_query] ++ q._queries.map Prod.snd).map SearchQueryType.render)

/-- The current builder of a named scope (total lookup in the `_queries`
dict; the default is never used because the keys are stable). -/
def SearchAdvancedQuery.scopeOf (q : SearchAdvancedQuery) (name : String) :
    SearchQueryType :=
  match q._queries.find? (fun p => p.1 = name) with
  | some p => p.2
  | none => SearchQueryType.init (some name)

/-! ## `BookSearch` (`search.py` lines 150-374)

The HTTP layer (`requests.get` plus `response.json()['items']` inside
`BookSearch.__request`) is modelled as an opaque function `fetch` stored
in the cursor, taking the two per-request parameters `startIndex` and
`maxResults` (the only request parameters that vary across the cursor's
lifetime; the fixed parameters are constants of the cursor and are
recorded separately by `requestParams`).  `fetch` either returns the
provider's `items` list or raises: `httpError` from
`raise_for_status()`, or any other error the transport layer produces
(e.g. the `KeyError` that `response.json()['items']` raises when the
provider omits the `items` key). -/

/-- `BookSearch.BOOKS_PER_REQUEST` (`search.py` line 155). -/
def BOOKS_PER_REQUEST : Nat := 10

/-- Python `sorted(l)` via insertion sort. -/
def insertSorted (x : Nat) : List Nat → List Nat
  | [] => [x]
  | y :: ys => if x ≤ y then x :: y :: ys else y :: insertSorted x ys

/-- Python `sorted(l)`. -/
def pySorted (l : List Nat) : List Nat := l.foldr insertSorted []

/-- `sorted((1, b, 40))[1]` (`search.py` line 210): the effective page
size, the median of `1`, `b` and `40`. -/
def perRequestOf (b : Nat) : Nat := (pySorted [1, b, 40])[1]!

/-- The state of one `BookSearch` cursor: the opaque transport, the
fixed request parameters `__params` generated at construction, the
`BOOKS_PER_REQUEST` class attribute (`10` in the source), and the result
cache `__results` (a `dict` from `int` index to raw record). -/
structure BookSearch where
  fetch : Int → Nat → Except PyError (List RawRecord)
  params : List (String × String)
  booksPerRequest : Nat
  results : Int → Option RawRecord

/-- Python `dict.update`: keys already present keep their position and
get the new value; new keys are appended in order. -/
def dictUpdate (base upd : List (String × String)) : List (String × String) :=
  upd.foldl
    (fun acc kv =>
      if acc.any fun p => p.1 = kv.1 then
        acc.map fun p => if p.1 = kv.1 then (p.1, kv.2) else p
      else acc ++ [kv])
    base

/-- The merged parameter dict that `BookSearch.__request` (`search.py`
lines 225-241) passes to `requests.get`: the fixed `__params` updated
with the per-request `maxResults` and `startIndex`. -/
def BookSearch.requestParams (s : BookSearch) (maxResults : Nat)
    (startIndex : Int) : List (String × String) :=
  dictUpdate s.params
    [("maxResults", toString maxResults), ("startIndex", toString startIndex)]

/-- The `for cur_index, result in enumerate(results, start=start_index)`
loop of `BookSearch.__request_by_index` (`search.py` lines 222-223):
store each fetched record in the cache at its absolute index. -/
def insertPage (cache : Int → Option RawRecord) (start : Int) :
    List RawRecord → Int → Option RawRecord
  | [] => cache
  | r :: rs => insertPage (fun i => if i = start then some r else cache i) (start + 1) rs

/-- `BookSearch.__request_by_index` (`search.py` lines 202-223): compute
the effective page size and the containing page start (Python `//` is
floor division, `Int.fdiv`), issue one fetch, and on success store every
returned record at its absolute index.  Also returns the list of merged
parameter dicts of the requests issued (exactly one). -/
def BookSearch.requestByIndex (s : BookSearch) (index : Int) :
    Except PyError BookSearch × List (List (String × String)) :=
  let per := perRequestOf s.booksPerRequest
  let start := (index.fdiv per) * per
  match s.fetch start per with
  | .error e => (.error e, [s.requestParams per start])
  | .ok items =>
    (.ok { s with results := insertPage s.results start items },
     [s.requestParams per start])

/-- A Python value passed as the index argument of
`BookSearch.__getitem__`: either an `int` or some non-`int` value. -/
inductive PyVal where
  | int (n : Int)
  | nonInt (descr : String)

/-- `BookSearch.__getitem__` (`search.py` lines 181-195): reject
non-`int` indices with a `TypeError`; on a cache miss call
`__request_by_index`; then look the index up in the cache (`KeyError` if
still absent) and return `Book(data)`.  The result carries the updated
cursor state and the list of merged parameter dicts of the fetches
issued by this call. -/
def BookSearch.getitem (s : BookSearch) (index : PyVal) :
    Except PyError Book × BookSearch × List (List (String × String)) :=
  match index with
  | .nonInt _ => (.error .typeError, s, [])
  | .int n =>
    match s.results n with
    | some data => (Book.init data, s, [])
    | none =>
      match s.requestByIndex n with
      | (.error e, calls) => (.error e, s, calls)
      | (.ok s', calls) =>
        match s'.results n with
        | some data => (Book.init data, s', calls)
        | none => (.error .keyError, s', calls)

/-! ## `BookIterSearch` (`search.py` lines 377-401) -/

/-- The iterator object: a reference to the parent cursor and the
`__next_index` position counter (starting at `0`). -/
structure BookIterSearch where
  parent : BookSearch
  nextIndex : Nat

/-- `BookSearch.__iter__` (`search.py` lines 197-200): a fresh iterator
over this cursor, starting at index `0`. -/
def BookSearch.iter (s : BookSearch) : BookIterSearch :=
  ⟨s, 0⟩

/-- The outcome of one `BookIterSearch.__next__` call.  The updated
parent cursor is returned in every case because the iterator shares (and
mutates) the parent's cache. -/
inductive NextResult where
  | yield (b : Book) (it : BookIterSearch)
  | stopIteration (parent : BookSearch)
  | raised (e : PyError) (parent : BookSearch)

/-- `BookIterSearch.__next__` (`search.py` lines 388-401): look up the
current index on the parent; a `KeyError` becomes `StopIteration`, any
other error propagates, and on success the position advances. -/
def BookIterSearch.next (it : BookIterSearch) : NextResult :=
  match it.parent.getitem (.int it.nextIndex) with
  | (.ok b, s', _) => .yield b ⟨s', it.nextIndex + 1⟩
  | (.error .keyError, s', _) => .stopIteration s'
  | (.error e, s', _) => .raised e s'

/-- How a finite run of the iterator ended. -/
inductive IterEnd where
  | fuelOut
  | done
  | failed (e : PyError)
deriving DecidableEq

/-- Run the iterator for at most `fuel` steps, collecting the yielded
books: the consumer's `for` loop. -/
def runIter (it : BookIterSearch) : Nat → List Book × IterEnd
  | 0 => ([], .fuelOut)
  | fuel + 1 =>
    match it.next with
    | .yield b it' =>
      let r := runIter it' fuel
      (b :: r.1, r.2)
    | .stopIteration _ => ([], .done)
    | .raised e _ => ([], .failed e)

/-! ## Concrete instances used by counterexamples and witnesses -/

/-- A raw record that passes `BooksResource.__assert_valid_data`. -/
def goodRaw (payload : Nat) : RawRecord :=
  ⟨some "books#volume", true, payload⟩

/-- A raw record missing the `'kind'` key: `Book(badRaw)` raises
`ValueError`. -/
def badRaw : RawRecord :=
  ⟨none, true, 0⟩

/-- A transport that behaves like the provider holding the result list
`items`: it returns the requested page slice of `items`. -/
def providerFetch (items : List RawRecord) (start : Int) (max : Nat) :
    Except PyError (List RawRecord) :=
  .ok ((items.drop start.toNat).take max)

/-- A fresh cursor over the provider result list `items`, with the
source's fixed `BOOKS_PER_REQUEST = 10` and an empty cache. -/
def mkSearch (items : List RawRecord) : BookSearch :=
  ⟨providerFetch items, [("q", "test"), ("projection", "full")],
   BOOKS_PER_REQUEST, fun _ => none⟩

/-! ## The decode-at-fetch-time cursor described by the spec (§4.2 step 4)

The spec claims that each returned raw record is decoded at fetch time
and that the *decoded* records are inserted into the cache.  The
following definitions follow the spec's words (not the source) so that
the source's behaviour can be compared against them. -/

/-- Decode every raw record of a page, failing on the first invalid
record (decode-at-fetch-time, as the spec describes it). -/
def decodeAll : List RawRecord → Except PyError (List Book)
  | [] => .ok []
  | r :: rs =>
    match Book.init r, decodeAll rs with
    | .ok b, .ok bs => .ok (b :: bs)
    | .error e, _ => .error e
    | .ok _, .error e => .error e

/-- Spec-described cursor state: like `BookSearch`, but the cache holds
decoded `Book` records. -/
structure DecodedSearch where
  fetch : Int → Nat → Except PyError (List RawRecord)
  booksPerRequest : Nat
  resultsD : Int → Option Book

/-- Insert a page of decoded records into the spec-described cache. -/
def insertPageD (cache : Int → Option Book) (start : Int) :
    List Book → Int → Option Book
  | [] => cache
  | b :: bs => insertPageD (fun i => if i = start then some b else cache i) (start + 1) bs

/-- The spec's `get(index)` (§4.2 steps 2-5, following the spec's words,
not the source): on a miss fetch the containing page, decode every
returned raw record at fetch time, insert the decoded records into the
cache at their absolute indices, and serve cache hits directly from the
decoded cache. -/
def DecodedSearch.getSpec (s : DecodedSearch) (index : Int) :
    Except PyError Book × DecodedSearch :=
  match s.resultsD index with
  | some b => (.ok b, s)
  | none =>
    let per := perRequestOf s.booksPerRequest
    let start := (index.fdiv per) * per
    match s.fetch start per with
    | .error e => (.error e, s)
    | .ok items =>
      match decodeAll items with
      | .error e => (.error e, s)
      | .ok books =>
        let s' := { s with resultsD := insertPageD s.resultsD start books }
        match s'.resultsD index with
        | some b => (.ok b, s')
        | none => (.error .keyError, s')

/-- The spec-described cursor over the provider result list `items`,
with an empty cache. -/
def mkDecodedSearch (items : List RawRecord) : DecodedSearch :=
  ⟨providerFetch items, BOOKS_PER_REQUEST, fun _ => none⟩

/-- The effective page size of a cursor: `per_request` in
`BookSearch.__request_by_index`. -/
def BookSearch.pageSize (s : BookSearch) : Nat :=
  perRequestOf s.booksPerRequest

/-- The containing page start for a non-negative index:
`start_index = (index // per_request) * per_request`. -/
def BookSearch.pageStart (s : BookSearch) (i : Nat) : Nat :=
  i / s.pageSize * s.pageSize

/-- The cache of a cursor over provider list `items` agrees with `items`:
every cached entry sits at a valid non-negative index and is the record
of `items` at that index. -/
def cacheConsistent (items : List RawRecord) (cache : Int → Option RawRecord) : Prop :=
  ∀ j : Int, cache j = none ∨
    (0 ≤ j ∧ j < items.length ∧ cache j = items[j.toNat]?)

/-- Decidable equality on `Except` results, so that concrete outcomes of
`getitem` can be checked by `decide`. -/
instance {ε α : Type} [DecidableEq ε] [DecidableEq α] : DecidableEq (Except ε α) := fun a b =>
  match a, b with
  | .ok x, .ok y =>
    if h : x = y then isTrue (by rw [h]) else isFalse (fun hh => by cases hh; exact h rfl)
  | .error x, .error y =>
    if h : x = y then isTrue (by rw [h]) else isFalse (fun hh => by cases hh; exact h rfl)
  | .ok _, .error _ => isFalse (fun hh => by cases hh)
  | .error _, .ok _ => isFalse (fun hh => by cases hh)

/-! # Theorems

## Set-membership lemmas for the query builder -/

theorem mem_sinsert (a x : String) (l : List String) :
    a ∈ sinsert x l ↔ a = x ∨ a ∈ l := by
  induction l with
  | nil => simp [sinsert]
  | cons y ys ih =>
    unfold sinsert
    by_cases hxy : x = y
    · subst hxy
      simp [List.mem_cons]
    · rw [if_neg hxy]
      by_cases hlt : strLt x y = true
      · simp [hlt, List.mem_cons]
      · rw [if_neg hlt]
        simp only [List.mem_cons, ih]
        tauto

theorem mem_setUnion (a : String) (q : List String) :
    ∀ s : List String, a ∈ setUnion s q ↔ a ∈ s ∨ a ∈ q := by
  induction q with
  | nil => intro s; simp [setUnion]
  | cons x xs ih =>
    intro s
    have : setUnion s (x :: xs) = setUnion (sinsert x s) xs := rfl
    rw [this, ih, mem_sinsert]
    simp [List.mem_cons]
    tauto

theorem mem_setDiff (a : String) (s q : List String) :
    a ∈ setDiff s q ↔ a ∈ s ∧ a ∉ q := by
  simp [setDiff, List.mem_filter, List.contains]

theorem mem_include'_include (t : SearchQueryType) (query : String) (exact : Bool)
    (a : String) :
    a ∈ (t.include' query exact)._include ↔
      a ∈ t._include ∨ a ∈ queryLiterals query exact := by
  simp [SearchQueryType.include', mem_setUnion]

theorem mem_include'_exclude (t : SearchQueryType) (query : String) (exact : Bool)
    (a : String) :
    a ∈ (t.include' query exact)._exclude ↔
      a ∈ t._exclude ∧ a ∉ queryLiterals query exact := by
  simp [SearchQueryType.include', mem_setDiff]

theorem mem_exclude_exclude (t : SearchQueryType) (query : String) (exact : Bool)
    (a : String) :
    a ∈ (t.exclude query exact)._exclude ↔
      a ∈ t._exclude ∨ a ∈ queryLiterals query exact := by
  simp [SearchQueryType.exclude, mem_setUnion]

theorem mem_exclude_include (t : SearchQueryType) (query : String) (exact : Bool)
    (a : String) :
    a ∈ (t.exclude query exact)._include ↔
      a ∈ t._include ∧ a ∉ queryLiterals query exact := by
  simp [SearchQueryType.exclude, mem_setDiff]

/-- A call that does not produce the literal leaves the literal's
membership in both sets unchanged. -/
theorem applyOp_not_produced (t : SearchQueryType) (op : QueryOp) (lit : String)
    (h : lit ∉ opLiterals op) :
    (lit ∈ (applyOp t op)._include ↔ lit ∈ t._include)
    ∧ (lit ∈ (applyOp t op)._exclude ↔ lit ∈ t._exclude) := by
  cases op with
  | inc text exact =>
    simp only [applyOp, opLiterals] at *
    rw [mem_include'_include, mem_include'_exclude]
    tauto
  | exc text exact =>
    simp only [applyOp, opLiterals] at *
    rw [mem_exclude_include, mem_exclude_exclude]
    tauto

/-- A call that produces the literal puts it in that call's set and
removes it from the other. -/
theorem applyOp_produced (t : SearchQueryType) (op : QueryOp) (lit : String)
    (h : lit ∈ opLiterals op) :
    (opIsInclude op = true →
      lit ∈ (applyOp t op)._include ∧ lit ∉ (applyOp t op)._exclude)
    ∧ (opIsInclude op = false →
      lit ∈ (applyOp t op)._exclude ∧ lit ∉ (applyOp t op)._include) := by
  cases op with
  | inc text exact =>
    simp only [applyOp, opLiterals, opIsInclude] at *
    rw [mem_include'_include, mem_include'_exclude]
    tauto
  | exc text exact =>
    simp only [applyOp, opLiterals, opIsInclude] at *
    rw [mem_exclude_include, mem_exclude_exclude]
    tauto

/-- One call preserves disjointness of the include and exclude sets. -/
theorem applyOp_disjoint (t : SearchQueryType) (op : QueryOp)
    (h : ∀ x, x ∈ t._include → x ∉ t._exclude) :
    ∀ x, x ∈ (applyOp t op)._include → x ∉ (applyOp t op)._exclude := by
  intro x hx hx'
  cases op with
  | inc text exact =>
    rw [show applyOp t (.inc text exact) = t.include' text exact from rfl] at hx hx'
    rw [mem_include'_include] at hx
    rw [mem_include'_exclude] at hx'
    rcases hx with h1 | h1
    · exact h x h1 hx'.1
    · exact hx'.2 h1
  | exc text exact =>
    rw [show applyOp t (.exc text exact) = t.exclude text exact from rfl] at hx hx'
    rw [mem_exclude_include] at hx
    rw [mem_exclude_exclude] at hx'
    rcases hx' with h1 | h1
    · exact h x hx.1 h1
    · exact hx.2 h1

theorem applyOps_disjoint (ops : List QueryOp) :
    ∀ t : SearchQueryType,
      (∀ x, x ∈ t._include → x ∉ t._exclude) →
      ∀ x, x ∈ (applyOps t ops)._include → x ∉ (applyOps t ops)._exclude := by
  induction ops with
  | nil => intro t h; exact h
  | cons op rest ih =>
    intro t h
    exact ih (applyOp t op) (applyOp_disjoint t op h)

theorem applyOps_append_single (t : SearchQueryType) (ops : List QueryOp)
    (op : QueryOp) :
    applyOps t (ops ++ [op]) = applyOp (applyOps t ops) op := by
  simp [applyOps, List.foldl_append]

/-- Last-write-wins over any call sequence, from any starting state. -/
theorem applyOps_lww (lit : String) (ops : List QueryOp) :
    ∀ (t : SearchQueryType) (op₀ : QueryOp),
      (ops.filter fun op => decide (lit ∈ opLiterals op)).getLast? = some op₀ →
      (opIsInclude op₀ = true →
        lit ∈ (applyOps t ops)._include ∧ lit ∉ (applyOps t ops)._exclude)
      ∧ (opIsInclude op₀ = false →
        lit ∈ (applyOps t ops)._exclude ∧ lit ∉ (applyOps t ops)._include) := by
  induction ops using List.reverseRecOn with
  | nil => intro t op₀ h; simp at h
  | append_singleton ops op ih =>
    intro t op₀ h
    rw [List.filter_append] at h
    by_cases hp : lit ∈ opLiterals op
    · rw [show (List.filter (fun op => decide (lit ∈ opLiterals op)) [op])
            = [op] by simp [hp]] at h
      rw [List.getLast?_concat] at h
      injection h with h
      subst h
      rw [applyOps_append_single]
      exact applyOp_produced _ op lit hp
    · rw [show (List.filter (fun op => decide (lit ∈ opLiterals op)) [op])
            = [] by simp [hp]] at h
      rw [List.append_nil] at h
      have hmem := applyOp_not_produced (applyOps t ops) op lit hp
      have hih := ih t op₀ h
      rw [applyOps_append_single]
      constructor
      · intro hinc
        rw [hmem.1, hmem.2]
        exact hih.1 hinc
      · intro hexc
        rw [hmem.1, hmem.2]
        exact hih.2 hexc

/-- C7: For every SearchQueryType builder and every finite sequence of
include/exclude calls, no literal is ever present in both the include set
and the exclude set of the same scope; for every literal produced by at
least one of the calls, after the sequence it is present in exactly one
of the two sets, namely the set of the last call that produced it
(last-write-wins, never an error). -/
theorem claim_C7 (name : Option String) (ops : List QueryOp) (lit : String) :
    (∀ x, x ∈ (applyOps (SearchQueryType.init name) ops)._include →
      x ∉ (applyOps (SearchQueryType.init name) ops)._exclude)
    ∧ (∀ op₀ : QueryOp,
        (ops.filter fun op => decide (lit ∈ opLiterals op)).getLast? = some op₀ →
        (opIsInclude op₀ = true →
          lit ∈ (applyOps (SearchQueryType.init name) ops)._include
          ∧ lit ∉ (applyOps (SearchQueryType.init name) ops)._exclude)
        ∧ (opIsInclude op₀ = false →
          lit ∈ (applyOps (SearchQueryType.init name) ops)._exclude
          ∧ lit ∉ (applyOps (SearchQueryType.init name) ops)._include)) := by
  constructor
  · exact applyOps_disjoint ops (SearchQueryType.init name) (by simp [SearchQueryType.init])
  · intro op₀ h
    exact applyOps_lww lit ops (SearchQueryType.init name) op₀ h

/-- Witness for C7 at a concrete input: after `include("a")` then
`exclude("a")`, the literal `"a"` sits in the exclude set only. -/
theorem claim_C7_witness :
    "a" ∈ (applyOps (SearchQueryType.init none)
      [QueryOp.inc "a" false, QueryOp.exc "a" false])._exclude
    ∧ "a" ∉ (applyOps (SearchQueryType.init none)
      [QueryOp.inc "a" false, QueryOp.exc "a" false])._include := by
  have h := (claim_C7 none [QueryOp.inc "a" false, QueryOp.exc "a" false] "a").2
    (QueryOp.exc "a" false) (by decide)
  exact h.2 rfl

/-! ## C8: tokenisation and rendering of a single scope -/

/-- C8: `include(text, exact=False)` splits on whitespace and adds each
word as an independent bare literal, while `include(text, exact=True)`
adds the entire string as one quoted-phrase literal; rendering produces
one token `+[scope:]literal` per include literal and `-[scope:]literal`
per exclude literal, with the `scope:` prefix omitted for the scope-less
builder and all tokens concatenated with no separator: `include("a b",
exact=False)` renders as the two single-word tokens `+a+b`, `include("a
b", exact=True)` renders as the one quoted-phrase token `+"a b"`, and a
scoped builder with one include and one exclude literal renders as
`+intitle:x-intitle:y`. -/
theorem claim_C8 :
    ((SearchQueryType.init none).include' ("a b") false)._include = ["a", "b"]
    ∧ ((SearchQueryType.init none).include' ("a b") false).render = "+a+b"
    ∧ ((SearchQueryType.init none).include' ("a b") true)._include = ["\"a b\""]
    ∧ ((SearchQueryType.init none).include' ("a b") true).render = "+\"a b\""
    ∧ (((SearchQueryType.init (some "intitle")).include' ("x") false).exclude "y" false).render
        = "+intitle:x-intitle:y" :=
  ⟨by decide, rfl, by decide, rfl, rfl⟩

/-! ## C10: exact and non-exact literals never collide -/

/-- Every word produced by `str.split()` is at most as long as the input
(character count). -/
theorem pyWordsAux_length (l : List Char) :
    ∀ (acc cs : List Char), cs ∈ pyWordsAux acc l →
      cs.length ≤ acc.length + l.length := by
  induction l with
  | nil =>
    intro acc cs h
    unfold pyWordsAux at h
    by_cases hacc : acc.isEmpty = true
    · rw [if_pos hacc] at h
      simp at h
    · rw [if_neg hacc] at h
      simp at h
      subst h
      simp
  | cons c l' ih =>
    intro acc cs h
    unfold pyWordsAux at h
    by_cases hw : c.isWhitespace = true
    · rw [if_pos hw] at h
      by_cases hacc : acc.isEmpty = true
      · rw [if_pos hacc] at h
        have := ih [] cs h
        simp at this ⊢
        omega
      · rw [if_neg hacc] at h
        rcases List.mem_cons.1 h with h1 | h1
        · subst h1
          simp only [List.length_reverse]
          omega
        · have := ih [] cs h1
          simp at this ⊢
          omega
    · rw [if_neg hw] at h
      have := ih (c :: acc) cs h
      simp at this ⊢
      omega

/-- The character data of the quoted-phrase literal `f'"{t}"'`. -/
theorem quote_data (t : String) :
    ("\"" ++ t ++ "\"").data = '"' :: (t.data ++ ['"']) := by
  cases t with
  | mk l => rfl

/-- The quoted-phrase literal of `t` is never one of the whitespace-split
words of `t` (it is strictly longer than any of them). -/
theorem mem_pySplit_ne_quote (t w : String) (h : w ∈ pySplit t) :
    w ≠ "\"" ++ t ++ "\"" := by
  rcases List.mem_map.1 h with ⟨cs, hcs, rfl⟩
  intro he
  have hlen := pyWordsAux_length t.toList [] cs hcs
  simp only [List.length_nil, Nat.zero_add] at hlen
  have hdata : cs = ("\"" ++ t ++ "\"").data := congrArg String.data he
  rw [quote_data] at hdata
  have hlen2 : cs.length = t.data.length + 2 := by
    rw [hdata]
    simp
  have ht : t.toList = t.data := rfl
  rw [ht] at hlen
  omega

/-- C10: For every string `text`, the literal stored by
`include(text, exact=True)` is the quoted string `"text"` (with
surrounding quote characters), a different set element from any bare
literal of the same text; a later `exclude(text, exact=False)` removes
only the bare word literals and leaves the quoted-phrase literal in the
include set — last-write-wins removal applies only between calls
producing the identical literal, never across the exact and non-exact
forms of the same text. -/
theorem claim_C10 (t : String) :
    ("\"" ++ t ++ "\"")
      ∈ (((SearchQueryType.init none).include' t true).exclude t false)._include
    ∧ ("\"" ++ t ++ "\"")
      ∉ (((SearchQueryType.init none).include' t true).exclude t false)._exclude
    ∧ ∀ w ∈ pySplit t,
        w ∈ (((SearchQueryType.init none).include' t true).exclude t false)._exclude
        ∧ w ∉ (((SearchQueryType.init none).include' t true).exclude t false)._include
        ∧ w ≠ "\"" ++ t ++ "\"" := by
  have hq : queryLiterals t true = ["\"" ++ t ++ "\""] := rfl
  have hqf : queryLiterals t false = pySplit t := rfl
  refine ⟨?_, ?_, ?_⟩
  · rw [mem_exclude_include, mem_include'_include, hq, hqf]
    exact ⟨Or.inr (by simp), fun h => mem_pySplit_ne_quote t _ h rfl⟩
  · rw [mem_exclude_exclude, mem_include'_exclude, hq, hqf]
    rintro (⟨h1, _⟩ | h1)
    · simp [SearchQueryType.init] at h1
    · exact mem_pySplit_ne_quote t _ h1 rfl
  · intro w hw
    refine ⟨?_, ?_, mem_pySplit_ne_quote t w hw⟩
    · rw [mem_exclude_exclude, hqf]
      exact Or.inr hw
    · rw [mem_exclude_include, hqf]
      rintro ⟨_, h2⟩
      exact h2 hw

/-- Witness for C10 at `text = "a"`: the quoted literal stays in the
include set and the bare word moves to the exclude set. -/
theorem claim_C10_witness :
    ("\"" ++ "a" ++ "\"")
      ∈ (((SearchQueryType.init none).include' ("a") true).exclude "a" false)._include
    ∧ "a" ∈ (((SearchQueryType.init none).include' ("a") true).exclude "a" false)._exclude :=
  ⟨(claim_C10 "a").1, ((claim_C10 "a").2.2 "a" (by decide)).1⟩

/-! ## C9: composite rendering order -/

theorem advOp_keys (q : SearchAdvancedQuery) (op : AdvOp) :
    (applyAdvOp q op)._queries.map Prod.fst = q._queries.map Prod.fst := by
  cases op with
  | main op => rfl
  | onScope scope op =>
    show (q._queries.map _).map Prod.fst = _
    rw [List.map_map]
    apply List.map_congr_left
    intro p _
    by_cases h : p.1 = scope <;> simp [h]

theorem applyAdvOps_keys (ops : List AdvOp) :
    ∀ q : SearchAdvancedQuery,
      (applyAdvOps q ops)._queries.map Prod.fst = q._queries.map Prod.fst := by
  induction ops with
  | nil => intro q; rfl
  | cons op rest ih =>
    intro q
    rw [show applyAdvOps q (op :: rest) = applyAdvOps (applyAdvOp q op) rest from rfl,
      ih, advOp_keys]

/-- In an association list whose key list is exactly `names` (no
duplicates), the values are recovered in order by `find?` on each name. -/
theorem map_snd_eq_of_keys (names : List String) :
    ∀ l : List (String × SearchQueryType),
      l.map Prod.fst = names → names.Nodup →
      l.map Prod.snd = names.map (fun n =>
        match l.find? (fun p => p.1 = n) with
        | some p => p.2
        | none => SearchQueryType.init (some n)) := by
  induction names with
  | nil =>
    intro l h _
    cases l with
    | nil => rfl
    | cons a l' => simp at h
  | cons a names' ih =>
    intro l h hnd
    cases l with
    | nil => simp at h
    | cons p l' =>
      simp only [List.map_cons, List.cons.injEq] at h
      obtain ⟨h1, h2⟩ := h
      rw [List.nodup_cons] at hnd
      obtain ⟨ha, hnd'⟩ := hnd
      simp only [List.map_cons]
      have hfind : (p :: l').find? (fun x => decide (x.1 = a)) = some p :=
        List.find?_cons_of_pos _ (by simp [h1])
      congr 1
      · rw [hfind]
      · rw [ih l' h2 hnd']
        apply List.map_congr_left
        intro n hn
        have hna : ¬ (p.1 = n) := by
          rw [h1]
          rintro rfl
          exact ha hn
        rw [List.find?_cons_of_neg _ (by simp [hna])]

theorem strConcat_cons (x : String) (l : List String) :
    strConcat (x :: l) = x ++ strConcat l := rfl

/-- C9: The composite builder's rendered string is the concatenation of
the scope-less builder's rendering followed by the rendering of each of
the seven named-scope builders (`intitle`, `inauthor`, `inpublisher`,
`subject`, `isbn`, `lccn`, `oclc`) in a fixed, stable enumeration order:
after any sequence of calls, the dict's key list is still exactly
`AVALIABLE_QUERY_TYPES`, the scope-less term renders first, and the named
scopes render in that fixed order. -/
theorem claim_C9 (ops : List AdvOp) :
    (applyAdvOps SearchAdvancedQuery.init ops)._queries.map Prod.fst
      = AVALIABLE_QUERY_TYPES
    ∧ (applyAdvOps SearchAdvancedQuery.init ops).render
      = (applyAdvOps SearchAdvancedQuery.init ops)._main_query.render
        ++ strConcat (AVALIABLE_QUERY_TYPES.map fun n =>
            ((applyAdvOps SearchAdvancedQuery.init ops).scopeOf n).render) := by
  have hkeys : (applyAdvOps SearchAdvancedQuery.init ops)._queries.map Prod.fst
      = AVALIABLE_QUERY_TYPES := by
    rw [applyAdvOps_keys]
    rfl
  refine ⟨hkeys, ?_⟩
  have hsnd := map_snd_eq_of_keys AVALIABLE_QUERY_TYPES
    (applyAdvOps SearchAdvancedQuery.init ops)._queries hkeys (by decide)
  show strConcat ((([(applyAdvOps SearchAdvancedQuery.init ops)._main_query]
      ++ (applyAdvOps SearchAdvancedQuery.init ops)._queries.map Prod.snd).map
        SearchQueryType.render)) = _
  rw [hsnd]
  rw [List.singleton_append, List.map_cons, strConcat_cons, List.map_map]
  rfl

/-! ## Cursor lemmas -/

/-- `sorted((1, b, 40))[1]` is the clamp of `b` into `[1, 40]`. -/
theorem perRequestOf_eq (b : Nat) : perRequestOf b = min (max 1 b) 40 := by
  have hfold : perRequestOf b = (insertSorted 1 (insertSorted b [40]))[1]! := rfl
  by_cases hb40 : b ≤ 40
  · by_cases hb1 : 1 ≤ b
    · have h1 : insertSorted b [40] = [b, 40] := by
        unfold insertSorted
        rw [if_pos hb40]
      have h2 : insertSorted 1 [b, 40] = [1, b, 40] := by
        unfold insertSorted
        rw [if_pos hb1]
      rw [hfold, h1, h2]
      have h3 : ([1, b, 40])[1]! = b := rfl
      rw [h3]
      omega
    · have hb0 : b = 0 := by omega
      subst hb0
      decide
  · have h1 : insertSorted b [40] = [40, b] := by
      unfold insertSorted
      rw [if_neg hb40]
      rfl
    have h2 : insertSorted 1 [40, b] = [1, 40, b] := by
      unfold insertSorted
      rw [if_pos (by omega : (1 : Nat) ≤ 40)]
    rw [hfold, h1, h2]
    have h3 : ([1, 40, b])[1]! = 40 := rfl
    rw [h3]
    omega

theorem perRequestOf_pos (b : Nat) : 1 ≤ perRequestOf b := by
  rw [perRequestOf_eq]
  omega

theorem perRequestOf_le (b : Nat) : perRequestOf b ≤ 40 := by
  rw [perRequestOf_eq]
  omega

/-- The cache after inserting a page: the fetched records at their
absolute indices, everything else unchanged. -/
theorem insertPage_eq (items : List RawRecord) :
    ∀ (cache : Int → Option RawRecord) (start j : Int),
      insertPage cache start items j =
        if start ≤ j ∧ j < start + items.length then items[(j - start).toNat]?
        else cache j := by
  induction items with
  | nil =>
    intro cache start j
    rw [show insertPage cache start [] j = cache j from rfl, if_neg]
    rintro ⟨h1, h2⟩
    simp only [List.length_nil, Int.ofNat_zero, Int.add_zero] at h2
    omega
  | cons r rs ih =>
    intro cache start j
    rw [show insertPage cache start (r :: rs) j
        = insertPage (fun i => if i = start then some r else cache i) (start + 1) rs j
        from rfl]
    rw [ih]
    by_cases hj : j = start
    · subst hj
      rw [if_neg (show ¬(j + 1 ≤ j ∧ j < j + 1 + (rs.length : Int)) by omega),
        if_pos (show j ≤ j ∧ j < j + ((r :: rs).length : Int) by
          simp only [List.length_cons]; push_cast; omega)]
      simp
    · by_cases hrange : start + 1 ≤ j ∧ j < start + 1 + (rs.length : Int)
      · rw [if_pos hrange,
          if_pos (show start ≤ j ∧ j < start + ((r :: rs).length : Int) by
            simp only [List.length_cons]; push_cast at hrange ⊢; omega)]
        have hidx : (j - start).toNat = (j - (start + 1)).toNat + 1 := by omega
        rw [hidx, List.getElem?_cons_succ]
      · rw [if_neg hrange,
          if_neg (show ¬(start ≤ j ∧ j < start + ((r :: rs).length : Int)) by
            simp only [List.length_cons]; push_cast at hrange ⊢; omega)]
        simp [hj]

/-- Unfolding equation of `__getitem__` on an `int` index. -/
theorem getitem_int_eq (s : BookSearch) (n : Int) :
    s.getitem (.int n) =
      match s.results n with
      | some data => (Book.init data, s, [])
      | none =>
        match s.requestByIndex n with
        | (.error e, calls) => (.error e, s, calls)
        | (.ok s', calls) =>
          match s'.results n with
          | some data => (Book.init data, s', calls)
          | none => (.error .keyError, s', calls) := rfl

/-- Unfolding equation of `__request_by_index`, with the local variables
`per_request` and `start_index` spelled out. -/
theorem requestByIndex_eq (s : BookSearch) (index : Int) :
    s.requestByIndex index =
      match s.fetch ((index.fdiv (perRequestOf s.booksPerRequest))
          * perRequestOf s.booksPerRequest) (perRequestOf s.booksPerRequest) with
      | .error e =>
        (.error e,
         [s.requestParams (perRequestOf s.booksPerRequest)
           ((index.fdiv (perRequestOf s.booksPerRequest)) * perRequestOf s.booksPerRequest)])
      | .ok items =>
        (.ok { s with results := (insertPage s.results ((index.fdiv (perRequestOf s.booksPerRequest)) * perRequestOf s.booksPerRequest) items) },
         [s.requestParams (perRequestOf s.booksPerRequest)
           ((index.fdiv (perRequestOf s.booksPerRequest)) * perRequestOf s.booksPerRequest)]) :=
  rfl

/-- A cache hit: no fetch, no state change, the cached raw record is
decoded at access time. -/
theorem getitem_hit (s : BookSearch) (n : Int) (r : RawRecord)
    (h : s.results n = some r) :
    s.getitem (.int n) = (Book.init r, s, []) := by
  rw [getitem_int_eq, h]

/-- A cache miss with a failing fetch: the error propagates, the cache
is untouched, and exactly one request was issued with the page
parameters merged into the fixed parameters. -/
theorem getitem_miss_err (s : BookSearch) (n : Int) (e : PyError)
    (hm : s.results n = none)
    (hf : s.fetch ((n.fdiv (perRequestOf s.booksPerRequest))
            * perRequestOf s.booksPerRequest) (perRequestOf s.booksPerRequest)
          = .error e) :
    s.getitem (.int n) =
      (.error e, s,
        [s.requestParams (perRequestOf s.booksPerRequest)
          ((n.fdiv (perRequestOf s.booksPerRequest)) * perRequestOf s.booksPerRequest)]) := by
  rw [getitem_int_eq, hm]
  simp only [requestByIndex_eq, hf]

/-- A cache miss with a successful fetch: the page is inserted into the
cache, exactly one request was issued, and the result is the decoded
record at `n` if the page covered it, else a `KeyError`. -/
theorem getitem_miss_ok (s : BookSearch) (n : Int) (items : List RawRecord)
    (hm : s.results n = none)
    (hf : s.fetch ((n.fdiv (perRequestOf s.booksPerRequest))
            * perRequestOf s.booksPerRequest) (perRequestOf s.booksPerRequest)
          = .ok items) :
    s.getitem (.int n) =
      ((match insertPage s.results
          ((n.fdiv (perRequestOf s.booksPerRequest)) * perRequestOf s.booksPerRequest)
          items n with
        | some data => Book.init data
        | none => Except.error PyError.keyError),
       { s with results := (insertPage s.results ((n.fdiv (perRequestOf s.booksPerRequest)) * perRequestOf s.booksPerRequest) items) },
       [s.requestParams (perRequestOf s.booksPerRequest)
          ((n.fdiv (perRequestOf s.booksPerRequest)) * perRequestOf s.booksPerRequest)]) := by
  rw [getitem_int_eq, hm]
  simp only [requestByIndex_eq, hf]
  rcases h : insertPage s.results
      ((n.fdiv (perRequestOf s.booksPerRequest)) * perRequestOf s.booksPerRequest) items n with
    _ | data <;> simp [h]

/-! ## C1: caching behaviour of repeated `get` calls -/

/-- Counterexample to C1 as stated: on a cursor whose provider holds no
results, `get(0)` twice issues two fetches (one per call) — after a short
page the requested index is still absent from the cache, so the second
call fetches the same page again; "at most one fetch per page per cursor
lifetime" fails. -/
theorem claim_C1_counterexample :
    ¬ (((mkSearch []).getitem (.int 0)).2.2.length
        + ((((mkSearch []).getitem (.int 0)).2.1).getitem (.int 0)).2.2.length ≤ 1) := by
  decide

/-- C1 (amended): if `i` is already present in the cache, `get(i)`
returns the cached record (decoded) immediately with no fetch and no
state change; consequently, whenever the first `get(i)` succeeds, a
second `get(i)` with no intervening mutation issues no fetch and returns
the same record — so at most one fetch per page as long as lookups
succeed.  (The unamended per-page bound fails when a short page leaves
`i` uncached: see the counterexample.) -/
theorem claim_C1 :
    (∀ (s : BookSearch) (i : Int) (r : RawRecord),
      s.results i = some r →
      s.getitem (.int i) = (Book.init r, s, []))
    ∧ (∀ (s : BookSearch) (i : Int) (b : Book),
      (s.getitem (.int i)).1 = .ok b →
      ((s.getitem (.int i)).2.1).getitem (.int i)
        = (.ok b, (s.getitem (.int i)).2.1, [])) := by
  constructor
  · exact fun s i r h => getitem_hit s i r h
  · intro s i b h
    rcases hres : s.results i with _ | r
    · rcases hf : s.fetch ((i.fdiv (perRequestOf s.booksPerRequest))
          * perRequestOf s.booksPerRequest) (perRequestOf s.booksPerRequest) with e | items
      · rw [getitem_miss_err s i e hres hf] at h
        exact absurd (show Except.error e = Except.ok b from h) (by simp)
      · have key := getitem_miss_ok s i items hres hf
        rcases hlook : insertPage s.results
            ((i.fdiv (perRequestOf s.booksPerRequest)) * perRequestOf s.booksPerRequest)
            items i with _ | data
        · rw [key] at h
          rw [hlook] at h
          simp at h
        · rw [key] at h
          rw [hlook] at h
          have hb : Book.init data = Except.ok b := h
          have hres2 : (s.getitem (.int i)).2.1.results i = some data := by
            rw [key]
            exact hlook
          rw [getitem_hit ((s.getitem (.int i)).2.1) i data hres2, hb]
    · have h1 := getitem_hit s i r hres
      rw [h1] at h
      have hb : Book.init r = Except.ok b := h
      rw [h1]
      show s.getitem (.int i) = (Except.ok b, s, [])
      rw [getitem_hit s i r hres, hb]

/-- Witness for C1 at a concrete input: the second `get(0)` after a
successful first `get(0)` issues no fetch and returns the same book. -/
theorem claim_C1_witness :
    (((mkSearch [goodRaw 7]).getitem (.int 0)).2.1).getitem (.int 0)
      = (.ok ⟨goodRaw 7⟩, ((mkSearch [goodRaw 7]).getitem (.int 0)).2.1, []) :=
  claim_C1.2 (mkSearch [goodRaw 7]) 0 ⟨goodRaw 7⟩ rfl

/-! ## C4: index validation -/

/-- Counterexample to C4 as stated: `get(-1)` on a fresh cursor is NOT
rejected with an invalid-argument error before network access — the
non-`int` check passes for every `int`, one fetch is issued (with
`startIndex=-10` merged into the fixed parameters), and the call fails
with the not-found `KeyError` instead. -/
theorem claim_C4_counterexample :
    ((mkSearch []).getitem (.int (-1))).1 ≠ .error .typeError
    ∧ ((mkSearch []).getitem (.int (-1))).1 = .error .keyError
    ∧ ((mkSearch []).getitem (.int (-1))).2.2 =
        [[("q", "test"), ("projection", "full"),
          ("maxResults", "10"), ("startIndex", "-10")]] := by
  refine ⟨by decide, rfl, rfl⟩

/-- C4 (amended): `get` rejects non-integer index arguments with an
invalid-argument `TypeError` before any network access (no fetch, no
state change); a negative integer index is NOT rejected — on a cache
miss it proceeds to issue exactly one page fetch like any other
integer. -/
theorem claim_C4 :
    (∀ (s : BookSearch) (d : String),
      s.getitem (.nonInt d) = (.error .typeError, s, []))
    ∧ (∀ (s : BookSearch) (n : Int), n < 0 → s.results n = none →
      (s.getitem (.int n)).2.2.length = 1) := by
  constructor
  · intro s d
    rfl
  · intro s n _ hm
    rcases hf : s.fetch ((n.fdiv (perRequestOf s.booksPerRequest))
        * perRequestOf s.booksPerRequest) (perRequestOf s.booksPerRequest) with e | items
    · rw [getitem_miss_err s n e hm hf]
      rfl
    · rw [getitem_miss_ok s n items hm hf]
      rfl

/-- Witness for C4 at concrete inputs: a string index is rejected with
`TypeError` and no fetch; index `-1` issues exactly one fetch. -/
theorem claim_C4_witness :
    (mkSearch []).getitem (.nonInt "x") = (.error .typeError, mkSearch [], [])
    ∧ ((mkSearch []).getitem (.int (-1))).2.2.length = 1 :=
  ⟨claim_C4.1 (mkSearch []) "x", claim_C4.2 (mkSearch []) (-1) (by decide) rfl⟩

/-! ## C2: page-aligned fetch parameters -/

/-- Cast bridge between the Python floor division on `int` and the
`Nat`-level page-start computation. -/
theorem fdiv_pageStart (s : BookSearch) (i : Nat) :
    Int.fdiv (i : Int) ((perRequestOf s.booksPerRequest : Nat) : Int)
        * ((perRequestOf s.booksPerRequest : Nat) : Int)
      = ((s.pageStart i : Nat) : Int) := by
  rw [← Int.ofNat_fdiv, ← Nat.cast_mul]
  rfl

/-- C2: for every cursor and every index `i` not in the cache, `get(i)`
issues exactly one remote fetch whose merged parameters are the cursor's
fixed parameters updated with `maxResults = P` and
`startIndex = (i / P) * P`, where `P` is `BOOKS_PER_REQUEST` clamped
into `[1, 40]`; in particular, requesting index 25 with `P = 10` issues
a fetch with `startIndex=20, maxResults=10`, and on a full returned page
populates cache entries 20 through 29. -/
theorem claim_C2 :
    (∀ b : Nat, perRequestOf b = min (max 1 b) 40)
    ∧ (∀ (s : BookSearch) (i : Nat), s.results i = none →
        (s.getitem (.int i)).2.2 =
          [dictUpdate s.params
            [("maxResults", toString s.pageSize),
             ("startIndex", toString ((s.pageStart i : Nat) : Int))]])
    ∧ (∀ (s : BookSearch) (items : List RawRecord),
        s.booksPerRequest = 10 → s.results 25 = none →
        s.fetch 20 10 = .ok items → items.length = 10 →
        (s.getitem (.int 25)).2.2 =
          [dictUpdate s.params [("maxResults", "10"), ("startIndex", "20")]]
        ∧ ∀ k : Nat, k < 10 →
            ((s.getitem (.int 25)).2.1).results ((20 : Int) + k) = items[k]?) := by
  refine ⟨perRequestOf_eq, ?_, ?_⟩
  · intro s i hm
    rcases hf : s.fetch ((Int.fdiv i (perRequestOf s.booksPerRequest))
        * perRequestOf s.booksPerRequest) (perRequestOf s.booksPerRequest) with e | items
    · rw [getitem_miss_err s i e hm hf]
      rw [show ((Except.error e : Except PyError Book), s,
          [s.requestParams (perRequestOf s.booksPerRequest)
            ((Int.fdiv i (perRequestOf s.booksPerRequest)) * perRequestOf s.booksPerRequest)]).2.2
          = [s.requestParams (perRequestOf s.booksPerRequest)
            ((Int.fdiv i (perRequestOf s.booksPerRequest)) * perRequestOf s.booksPerRequest)]
          from rfl]
      rw [fdiv_pageStart]
      rfl
    · rw [getitem_miss_ok s i items hm hf]
      show [s.requestParams (perRequestOf s.booksPerRequest)
          ((Int.fdiv i (perRequestOf s.booksPerRequest)) * perRequestOf s.booksPerRequest)] = _
      rw [fdiv_pageStart]
      rfl
  · intro s items hb hm hf hl
    have hper : perRequestOf s.booksPerRequest = 10 := by
      rw [hb]
      rfl
    have hf' : s.fetch ((Int.fdiv (25 : Int) (perRequestOf s.booksPerRequest))
        * perRequestOf s.booksPerRequest) (perRequestOf s.booksPerRequest) = .ok items := by
      rw [hper]
      exact hf
    have key := getitem_miss_ok s 25 items hm hf'
    have hstart : (Int.fdiv (25 : Int) ((perRequestOf s.booksPerRequest : Nat) : Int))
        * ((perRequestOf s.booksPerRequest : Nat) : Int) = (20 : Int) := by
      rw [hper]
      rfl
    rw [hstart] at key
    constructor
    · rw [key]
      show [s.requestParams (perRequestOf s.booksPerRequest) 20] = _
      rw [hper]
      rfl
    · intro k hk
      rw [key]
      show insertPage s.results 20 items ((20 : Int) + k) = items[k]?
      rw [insertPage_eq,
        if_pos (show (20 : Int) ≤ 20 + (k : Int)
            ∧ (20 : Int) + (k : Int) < 20 + (items.length : Int) by
          rw [hl]; push_cast; omega)]
      have hidx : (((20 : Int) + (k : Int)) - 20).toNat = k := by omega
      rw [hidx]

/-- Witness for C2: requesting index 25 on a fresh cursor over 30
records issues the single fetch `maxResults=10, startIndex=20` and
caches entry 25. -/
theorem claim_C2_witness :
    ((mkSearch ((List.range 30).map goodRaw)).getitem (.int 25)).2.2 =
      [dictUpdate (mkSearch ((List.range 30).map goodRaw)).params
        [("maxResults", "10"), ("startIndex", "20")]]
    ∧ ((mkSearch ((List.range 30).map goodRaw)).getitem (.int 25)).2.1.results
        ((20 : Int) + (5 : Nat))
      = ((((List.range 30).map goodRaw)).drop 20 |>.take 10)[(5 : Nat)]? := by
  have h := claim_C2.2.2 (mkSearch ((List.range 30).map goodRaw))
      ((((List.range 30).map goodRaw)).drop 20 |>.take 10) rfl rfl rfl rfl
  exact ⟨h.1, h.2 5 (by decide)⟩

/-! ## C3: short pages -/

/-- C3: if the fetch for the page containing `i` returns fewer items
than reach `i` (a short page), `get(i)` fails with the not-found
`KeyError` (a distinct error from the transport error), `i` remains
absent from the cache, and the cache gains exactly the indices actually
returned (page entries at `pageStart + offset` for each returned record,
everything else unchanged). -/
theorem claim_C3 (s : BookSearch) (i : Nat) (items : List RawRecord)
    (hm : s.results i = none)
    (hf : s.fetch ((s.pageStart i : Nat) : Int) s.pageSize = .ok items)
    (hshort : s.pageStart i + items.length ≤ i) :
    (s.getitem (.int i)).1 = .error .keyError
    ∧ ((s.getitem (.int i)).2.1).results i = none
    ∧ (∀ j : Int, ((s.getitem (.int i)).2.1).results j =
        if ((s.pageStart i : Nat) : Int) ≤ j
            ∧ j < ((s.pageStart i : Nat) : Int) + items.length
        then items[(j - ((s.pageStart i : Nat) : Int)).toNat]?
        else s.results j)
    ∧ PyError.keyError ≠ PyError.httpError := by
  have hf' : s.fetch ((Int.fdiv (i : Int) (perRequestOf s.booksPerRequest))
      * perRequestOf s.booksPerRequest) (perRequestOf s.booksPerRequest) = .ok items := by
    rw [fdiv_pageStart]
    exact hf
  have key := getitem_miss_ok s i items hm hf'
  rw [fdiv_pageStart] at key
  have hL : insertPage s.results ((s.pageStart i : Nat) : Int) items (i : Int) = none := by
    rw [insertPage_eq,
      if_neg (show ¬(((s.pageStart i : Nat) : Int) ≤ (i : Int)
          ∧ (i : Int) < ((s.pageStart i : Nat) : Int) + (items.length : Int)) by
        omega)]
    exact hm
  refine ⟨?_, ?_, ?_, by decide⟩
  · rw [key, hL]
  · rw [key]
    exact hL
  · intro j
    rw [key]
    exact insertPage_eq items s.results _ j

/-- Witness for C3: a provider with 22 records returns a 2-item short
page for the fetch at `startIndex=20`; `get(25)` fails with `KeyError`,
25 stays uncached, and entry 21 was cached from the short page. -/
theorem claim_C3_witness :
    ((mkSearch ((List.range 22).map goodRaw)).getitem (.int 25)).1 = .error .keyError
    ∧ ((mkSearch ((List.range 22).map goodRaw)).getitem (.int 25)).2.1.results 25 = none
    ∧ ((mkSearch ((List.range 22).map goodRaw)).getitem (.int 25)).2.1.results 21
        = some (goodRaw 21) := by
  have h := claim_C3 (mkSearch ((List.range 22).map goodRaw)) 25
      (((((List.range 22).map goodRaw)).drop 20).take 10) rfl rfl (by decide)
  exact ⟨h.1, h.2.1, by decide⟩

/-! ## C5: what is cached, and when decoding happens -/

/-- Counterexample to C5 as stated: the cache stores the RAW records,
and decoding (`Book(data)`, which validates the record) happens at
access time, not fetch time.  With a page containing an invalid raw
record at offset 0 and a valid one at offset 1, the real cursor caches
the undecodable raw record at index 0 and still serves index 1, while
the spec-described decode-at-fetch-time cursor fails the whole lookup
with the invalid-data error. -/
theorem claim_C5_counterexample :
    ((mkSearch [badRaw, goodRaw 1]).getitem (.int 1)).1 = .ok ⟨goodRaw 1⟩
    ∧ ((mkSearch [badRaw, goodRaw 1]).getitem (.int 1)).2.1.results 0 = some badRaw
    ∧ Book.init badRaw = .error .valueError
    ∧ ((mkDecodedSearch [badRaw, goodRaw 1]).getSpec 1).1 = .error .valueError :=
  ⟨rfl, rfl, rfl, rfl⟩

/-- C5 (amended): on a successful page fetch every returned raw record
is inserted UNDECODED into the cache at its absolute index
`pageStart + offsetWithinPage` (even though only one index was
requested); decoding into a typed record happens at access time — a
cache hit decodes the cached raw record on every call, with no fetch. -/
theorem claim_C5 :
    (∀ (s : BookSearch) (i : Nat) (items : List RawRecord),
      s.results i = none →
      s.fetch ((s.pageStart i : Nat) : Int) s.pageSize = .ok items →
      ∀ k : Nat, k < items.length →
        ((s.getitem (.int i)).2.1).results (((s.pageStart i : Nat) : Int) + k)
          = items[k]?)
    ∧ (∀ (s : BookSearch) (i : Int) (r : RawRecord),
      s.results i = some r →
      s.getitem (.int i) = (Book.init r, s, [])) := by
  constructor
  · intro s i items hm hf k hk
    have hf' : s.fetch ((Int.fdiv (i : Int) (perRequestOf s.booksPerRequest))
        * perRequestOf s.booksPerRequest) (perRequestOf s.booksPerRequest) = .ok items := by
      rw [fdiv_pageStart]
      exact hf
    have key := getitem_miss_ok s i items hm hf'
    rw [fdiv_pageStart] at key
    rw [key]
    show insertPage s.results ((s.pageStart i : Nat) : Int) items _ = items[k]?
    rw [insertPage_eq,
      if_pos (show ((s.pageStart i : Nat) : Int) ≤ ((s.pageStart i : Nat) : Int) + (k : Int)
          ∧ ((s.pageStart i : Nat) : Int) + (k : Int)
            < ((s.pageStart i : Nat) : Int) + (items.length : Int) by
        omega)]
    have hidx : ((((s.pageStart i : Nat) : Int) + (k : Int))
        - ((s.pageStart i : Nat) : Int)).toNat = k := by omega
    rw [hidx]
  · exact fun s i r h => getitem_hit s i r h

/-- Witness for C5: fetching the page of index 25 on a 30-record
provider caches the raw record at absolute index 27, and a later cache
hit at 0 returns the decoded cached record with no fetch. -/
theorem claim_C5_witness :
    ((mkSearch ((List.range 30).map goodRaw)).getitem (.int 25)).2.1.results
        (((20 : Nat) : Int) + (7 : Nat))
      = ((((List.range 30).map goodRaw)).drop 20 |>.take 10)[(7 : Nat)]?
    ∧ ({ mkSearch [goodRaw 3] with
          results := fun j => if j = 0 then some (goodRaw 3) else none } : BookSearch).getitem
          (.int 0)
      = (Book.init (goodRaw 3),
         { mkSearch [goodRaw 3] with
           results := fun j => if j = 0 then some (goodRaw 3) else none },
         []) := by
  constructor
  · exact claim_C5.1 (mkSearch ((List.range 30).map goodRaw)) 25
      ((((List.range 30).map goodRaw)).drop 20 |>.take 10) rfl rfl 7 (by decide)
  · exact claim_C5.2 { mkSearch [goodRaw 3] with
      results := fun j => if j = 0 then some (goodRaw 3) else none } 0 (goodRaw 3) rfl

/-! ## C6: iteration -/

/-- Unfolding equation of `runIter` at positive fuel. -/
theorem runIter_succ (it : BookIterSearch) (fuel : Nat) :
    runIter it (fuel + 1) =
      match it.next with
      | .yield b it' => (b :: (runIter it' fuel).1, (runIter it' fuel).2)
      | .stopIteration _ => ([], .done)
      | .raised e _ => ([], .failed e) := rfl

theorem runIter_yield (it : BookIterSearch) (fuel : Nat) (b : Book)
    (it' : BookIterSearch) (h : it.next = .yield b it') :
    runIter it (fuel + 1) = (b :: (runIter it' fuel).1, (runIter it' fuel).2) := by
  rw [runIter_succ, h]

theorem runIter_stop (it : BookIterSearch) (fuel : Nat) (p : BookSearch)
    (h : it.next = .stopIteration p) :
    runIter it (fuel + 1) = ([], .done) := by
  rw [runIter_succ, h]

theorem runIter_raised (it : BookIterSearch) (fuel : Nat) (e : PyError) (p : BookSearch)
    (h : it.next = .raised e p) :
    runIter it (fuel + 1) = ([], .failed e) := by
  rw [runIter_succ, h]

/-- `get` on a cursor whose transport is the provider over `items`,
starting from any consistent cache: the fetch function is preserved, the
cache stays consistent, an in-range index yields its decoded record, and
an out-of-range index fails with `KeyError`. -/
theorem provider_getitem (items : List RawRecord) (s : BookSearch) (n : Nat)
    (hf : s.fetch = providerFetch items)
    (hc : cacheConsistent items s.results) :
    ((s.getitem (.int n)).2.1.fetch = providerFetch items
      ∧ cacheConsistent items ((s.getitem (.int n)).2.1).results)
    ∧ (∀ h : n < items.length,
        (s.getitem (.int n)).1 = Book.init (items.get ⟨n, h⟩))
    ∧ (items.length ≤ n → (s.getitem (.int n)).1 = .error .keyError) := by
  have hper_pos : 1 ≤ perRequestOf s.booksPerRequest := perRequestOf_pos _
  have hps_le : s.pageStart n ≤ n := Nat.div_mul_le_self n _
  have hlt_ps : n < s.pageStart n + perRequestOf s.booksPerRequest := by
    have h3 := Nat.div_add_mod n (perRequestOf s.booksPerRequest)
    have h2 : n % perRequestOf s.booksPerRequest < perRequestOf s.booksPerRequest :=
      Nat.mod_lt _ (by omega)
    have hcomm : s.pageStart n
        = perRequestOf s.booksPerRequest * (n / perRequestOf s.booksPerRequest) :=
      Nat.mul_comm _ _
    omega
  rcases hres : s.results (n : Int) with _ | r
  · -- cache miss: one page fetch from the provider
    have hf' : s.fetch (Int.fdiv (n : Int) ((perRequestOf s.booksPerRequest : Nat) : Int)
          * ((perRequestOf s.booksPerRequest : Nat) : Int)) (perRequestOf s.booksPerRequest)
        = .ok ((items.drop (s.pageStart n)).take (perRequestOf s.booksPerRequest)) := by
      rw [hf, fdiv_pageStart]
      show Except.ok ((items.drop ((s.pageStart n : Int)).toNat).take _) = _
      rw [Int.toNat_ofNat]
    have key := getitem_miss_ok s n
      ((items.drop (s.pageStart n)).take (perRequestOf s.booksPerRequest)) hres hf'
    rw [fdiv_pageStart] at key
    have hslice_len : ((items.drop (s.pageStart n)).take (perRequestOf s.booksPerRequest)).length
        = min (perRequestOf s.booksPerRequest) (items.length - s.pageStart n) := by
      rw [List.length_take, List.length_drop]
    have hcons : cacheConsistent items
        (insertPage s.results ((s.pageStart n : Nat) : Int)
          ((items.drop (s.pageStart n)).take (perRequestOf s.booksPerRequest))) := by
      intro j
      rw [insertPage_eq]
      split
      case isTrue hj =>
        right
        refine ⟨by omega, by omega, ?_⟩
        have hm : (j - ((s.pageStart n : Nat) : Int)).toNat < perRequestOf s.booksPerRequest := by
          omega
        rw [List.getElem?_take_of_lt hm, List.getElem?_drop]
        rw [show s.pageStart n + (j - ((s.pageStart n : Nat) : Int)).toNat = j.toNat from by omega]
      case isFalse hj => exact hc j
    refine ⟨⟨?_, ?_⟩, ?_, ?_⟩
    · rw [key, hf]
    · rw [key]
      exact hcons
    · intro h
      have hlook : insertPage s.results ((s.pageStart n : Nat) : Int)
          ((items.drop (s.pageStart n)).take (perRequestOf s.booksPerRequest)) ((n : Nat) : Int)
          = some (items.get ⟨n, h⟩) := by
        rw [insertPage_eq]
        split
        case isTrue hj =>
          rw [show ((n : Int) - ((s.pageStart n : Nat) : Int)).toNat = n - s.pageStart n
            from by omega]
          rw [List.getElem?_take_of_lt (by omega), List.getElem?_drop]
          rw [show s.pageStart n + (n - s.pageStart n) = n from by omega]
          rw [List.getElem?_eq_getElem h]
          rw [List.get_eq_getElem]
        case isFalse hj =>
          exfalso
          apply hj
          constructor
          · omega
          · omega
      rw [key]
      show (match insertPage s.results ((s.pageStart n : Nat) : Int)
          ((items.drop (s.pageStart n)).take (perRequestOf s.booksPerRequest)) ((n : Nat) : Int)
          with
        | some data => Book.init data
        | none => Except.error PyError.keyError) = _
      rw [hlook]
    · intro hge
      have hlook : insertPage s.results ((s.pageStart n : Nat) : Int)
          ((items.drop (s.pageStart n)).take (perRequestOf s.booksPerRequest)) ((n : Nat) : Int)
          = none := by
        rw [insertPage_eq]
        split
        case isTrue hj => exfalso; omega
        case isFalse hj => exact hres
      rw [key]
      show (match insertPage s.results ((s.pageStart n : Nat) : Int)
          ((items.drop (s.pageStart n)).take (perRequestOf s.booksPerRequest)) ((n : Nat) : Int)
          with
        | some data => Book.init data
        | none => Except.error PyError.keyError) = _
      rw [hlook]
  · -- cache hit: the consistent cache pins down the stored record
    have hcn := hc (n : Int)
    rw [hres] at hcn
    rcases hcn with hbad | ⟨hn0, hnlt, hval⟩
    · cases hbad
    · have hg := getitem_hit s (n : Int) r hres
      have hnlt' : n < items.length := by
        rw [show ((n : Nat) : Int).toNat = n from rfl] at hval
        omega
      have hval' : some r = items[n]? := by
        rw [show ((n : Nat) : Int).toNat = n from rfl] at hval
        exact hval
      refine ⟨⟨?_, ?_⟩, ?_, ?_⟩
      · rw [hg, hf]
      · rw [hg]
        exact hc
      · intro h
        rw [hg]
        show Book.init r = _
        rw [List.getElem?_eq_getElem h] at hval'
        rw [List.get_eq_getElem]
        rw [Option.some.injEq] at hval'
        rw [hval']
      · intro hge
        omega

/-- Iterating a provider-backed cursor from position `n` with
`items.length - n` steps of fuel (plus one for the terminating
`KeyError`) yields exactly the remaining records, decoded, and then
terminates normally. -/
theorem provider_runIter (items : List RawRecord)
    (hvalid : ∀ r ∈ items, validResourceData r = true) :
    ∀ (k n : Nat) (s : BookSearch),
      s.fetch = providerFetch items →
      cacheConsistent items s.results →
      n + k = items.length →
      runIter ⟨s, n⟩ (k + 1) = ((items.drop n).map Book.mk, .done) := by
  intro k
  induction k with
  | zero =>
    intro n s hf hc hnk
    have hge : items.length ≤ n := by omega
    rcases hg : s.getitem (.int (n : Nat)) with ⟨res, st, cl⟩
    have hres : res = Except.error PyError.keyError := by
      have h := (provider_getitem items s n hf hc).2.2 hge
      rw [hg] at h
      exact h
    subst hres
    have hnext : BookIterSearch.next ⟨s, n⟩ = .stopIteration st := by
      unfold BookIterSearch.next
      rw [show (⟨s, n⟩ : BookIterSearch).parent.getitem
        (.int (⟨s, n⟩ : BookIterSearch).nextIndex)
        = s.getitem (.int (n : Nat)) from rfl]
      rw [hg]
    rw [runIter_stop _ 0 st hnext]
    rw [List.drop_of_length_le hge]
    rfl
  | succ k ih =>
    intro n s hf hc hnk
    have hlt : n < items.length := by omega
    rcases hg : s.getitem (.int (n : Nat)) with ⟨res, st, cl⟩
    have hp := provider_getitem items s n hf hc
    have hres : res = Book.init (items.get ⟨n, hlt⟩) := by
      have h := hp.2.1 hlt
      rw [hg] at h
      exact h
    have hvr : validResourceData (items.get ⟨n, hlt⟩) = true :=
      hvalid _ (List.get_mem items n hlt)
    have hbook : res = Except.ok ⟨items.get ⟨n, hlt⟩⟩ := by
      rw [hres]
      unfold Book.init
      rw [if_pos hvr]
    subst hbook
    have hfst : st.fetch = providerFetch items := by
      have h := hp.1.1
      rw [hg] at h
      exact h
    have hcst : cacheConsistent items st.results := by
      have h := hp.1.2
      rw [hg] at h
      exact h
    have hnext : BookIterSearch.next ⟨s, n⟩
        = .yield ⟨items.get ⟨n, hlt⟩⟩ ⟨st, n + 1⟩ := by
      unfold BookIterSearch.next
      rw [show (⟨s, n⟩ : BookIterSearch).parent.getitem
        (.int (⟨s, n⟩ : BookIterSearch).nextIndex)
        = s.getitem (.int (n : Nat)) from rfl]
      rw [hg]
    rw [runIter_yield _ (k + 1) _ _ hnext]
    rw [ih (n + 1) st hfst hcst (by omega)]
    rw [List.drop_eq_getElem_cons hlt, List.map_cons]
    rw [List.get_eq_getElem]

/-- C6: iterating a cursor returns a fresh, independent iterator
starting at index 0 that on each step calls `get(currentIndex)`,
increments `currentIndex` on success, terminates the sequence without
error exactly when `get` signals the not-found `KeyError`, and
propagates any other error from `get` to the consumer; consequently a
cursor whose query matches exactly the `N` records `items` yields
exactly those `N` records (decoded) in index order and then terminates,
and a cursor matching 0 records yields an empty sequence immediately. -/
theorem claim_C6 :
    (∀ s : BookSearch, s.iter = ⟨s, 0⟩)
    ∧ (∀ items : List RawRecord,
        (∀ r ∈ items, validResourceData r = true) →
        runIter (mkSearch items).iter (items.length + 1)
          = (items.map Book.mk, IterEnd.done))
    ∧ (∀ (it : BookIterSearch) (fuel : Nat) (b : Book),
        (it.parent.getitem (.int it.nextIndex)).1 = .ok b →
        runIter it (fuel + 1)
          = (b :: (runIter ⟨(it.parent.getitem (.int it.nextIndex)).2.1,
              it.nextIndex + 1⟩ fuel).1,
             (runIter ⟨(it.parent.getitem (.int it.nextIndex)).2.1,
              it.nextIndex + 1⟩ fuel).2))
    ∧ (∀ (it : BookIterSearch) (fuel : Nat),
        (it.parent.getitem (.int it.nextIndex)).1 = .error .keyError →
        runIter it (fuel + 1) = ([], IterEnd.done))
    ∧ (∀ (it : BookIterSearch) (fuel : Nat) (e : PyError),
        (it.parent.getitem (.int it.nextIndex)).1 = .error e →
        e ≠ .keyError →
        runIter it (fuel + 1) = ([], IterEnd.failed e)) := by
  refine ⟨fun s => rfl, ?_, ?_, ?_, ?_⟩
  · intro items hvalid
    have h := provider_runIter items hvalid items.length 0 (mkSearch items) rfl
      (fun j => Or.inl rfl) (by omega)
    rw [show (mkSearch items).iter = ⟨mkSearch items, 0⟩ from rfl, h, List.drop_zero]
  · intro it fuel b hb
    have hnext : it.next
        = .yield b ⟨(it.parent.getitem (.int it.nextIndex)).2.1, it.nextIndex + 1⟩ := by
      unfold BookIterSearch.next
      rcases hg : it.parent.getitem (.int it.nextIndex) with ⟨res, st, cl⟩
      rw [hg] at hb
      have hres : res = Except.ok b := hb
      subst hres
      rfl
    exact runIter_yield it fuel b _ hnext
  · intro it fuel hb
    rcases hg : it.parent.getitem (.int it.nextIndex) with ⟨res, st, cl⟩
    rw [hg] at hb
    have hres : res = Except.error PyError.keyError := hb
    subst hres
    have hnext : it.next = .stopIteration st := by
      unfold BookIterSearch.next
      rw [hg]
    exact runIter_stop _ fuel st hnext
  · intro it fuel e hb he
    rcases hg : it.parent.getitem (.int it.nextIndex) with ⟨res, st, cl⟩
    rw [hg] at hb
    have hres : res = Except.error e := hb
    subst hres
    have hnext : it.next = .raised e st := by
      unfold BookIterSearch.next
      rw [hg]
      cases e with
      | typeError => rfl
      | valueError => rfl
      | keyError => exact absurd rfl he
      | httpError => rfl
    exact runIter_raised _ fuel e st hnext

/-- Witness for C6: a 3-record provider yields exactly its three books
in order and terminates; a 0-record provider yields the empty sequence
immediately. -/
theorem claim_C6_witness :
    runIter (mkSearch [goodRaw 0, goodRaw 1, goodRaw 2]).iter 4
      = ([⟨goodRaw 0⟩, ⟨goodRaw 1⟩, ⟨goodRaw 2⟩], IterEnd.done)
    ∧ runIter (mkSearch []).iter 1 = ([], IterEnd.done) :=
  ⟨claim_C6.2.1 [goodRaw 0, goodRaw 1, goodRaw 2] (by decide),
   claim_C6.2.1 [] (by decide)⟩

end GoogleBooks
